import Mathlib

/-!
Verification of the spych wake-word coordination core (`spych/wake.py`,
`spych/utils.py`) against its specification.

The embedding models the shared mutable state of the system — the
coordinator's `locked`/`kill` flags and every listener worker's
`locked`/`kill` flags — as an explicit state record `SysState`.  One
listener worker is distinguished (`selfW`): it is the worker whose
`__call__` cycle is being modelled; `others` are the remaining workers of
the pool.  Callbacks are state transformers that may raise (`Option String`
is the escaping Python exception's message, `none` means normal return).
External blocking calls (`record`, `get_clean_audio_buffer`,
`transcribe`) are the points where concurrent interference can change the
shared flags; interference is modelled by a list of state transformers
consumed one per blocking call (an empty list means no interference, i.e.
purely sequential execution).
-/

/-- Per-listener flags: `SpychWakeListener.locked` and `.kill`
(`wake.py` lines 22-23). -/
structure WorkerState where
  locked : Bool
  kill : Bool
deriving DecidableEq, Repr

/-- The shared mutable state: the coordinator's `locked` and `kill` flags
(`SpychWake.__init__`, lines 205-206) plus the flags of every worker in
`wake_listeners`.  `selfW` is the distinguished worker whose cycle is being
modelled, `others` the rest of the pool. -/
structure SysState where
  coordLocked : Bool
  coordKill : Bool
  selfW : WorkerState
  others : List WorkerState
deriving DecidableEq, Repr

/-- A wake callback: a Python callable that may mutate the shared state and
may raise (the `Option String` is the escaping exception's message). -/
def Callback : Type := SysState → SysState × Option String

/-- `self.wake_word_map`: a Python dict modelled as an insertion-ordered
association list. -/
def WakeWordMap : Type := List (String × Callback)

/-- Python `str.lower()`.  (`String.toLower` of the standard library is
extensionally the same but is defined by well-founded recursion, which the
kernel cannot evaluate; this map over the character list reduces.) -/
def strLower (s : String) : String := String.mk (s.data.map Char.toLower)

/-- Python `k in d` on a dict modelled as an association list. -/
def dictContains (d : List (String × α)) (k : String) : Bool :=
  d.any (fun p => p.1 == k)

/-- Python `d[k] = v`: replace in place if the key exists (keeping its
position, as a Python dict does), otherwise append. -/
def dictInsert (d : List (String × α)) (k : String) (v : α) : List (String × α) :=
  if dictContains d k then d.map (fun p => if p.1 == k then (k, v) else p)
  else d ++ [(k, v)]

/-- Python `d[k]`, as an `Option` (a `KeyError` corresponds to `none`). -/
def dictGet? (d : List (String × α)) (k : String) : Option α :=
  match d.find? (fun p => p.1 == k) with
  | some p => some p.2
  | none => none

/-- Python `list(d.keys())`: keys in insertion order. -/
def dictKeys (d : List (String × α)) : List String :=
  d.map Prod.fst

/-- The label `Notify.notify` prefixes to a message
(`utils.py` lines 124-128). -/
def notificationLabel (notification_type : String) : String :=
  if notification_type == "warning" then "WARNING"
  else if notification_type == "verbose" then ""
  else if notification_type == "exception" then "EXCEPTION"
  else ""

/-- The full message `Notify.notify` builds (`utils.py` line 129):
`ClassName.caller LABEL: message`. -/
def notifyFormat (className methodName notification_type message : String) : String :=
  className ++ "." ++ methodName ++ " " ++
    notificationLabel notification_type ++ ": " ++ message

/-- `Notify.notify` (`utils.py` lines 124-143), modelled by its one effect
visible to the coordination logic: with `notification_type = "exception"` it
raises an `Exception` carrying the formatted message (returned as `some`);
with `"warning"` or `"verbose"` it only prints and returns normally
(`none`); any other type raises the invalid-type `Exception`. -/
def Notify.notify (className methodName message notification_type : String) :
    Option String :=
  let fullMessage := notifyFormat className methodName notification_type message
  if notification_type == "exception" then some fullMessage
  else if notification_type == "warning" then none
  else if notification_type == "verbose" then none
  else some "Invalid notification type. Must be one of: ['warning', 'verbose', 'exception']"

/-- `SpychWake.stop_listeners` (`wake.py` lines 250-258): set the `kill`
flag of every listener in the pool. -/
def SpychWake.stop_listeners (s : SysState) : SysState :=
  { s with selfW := { s.selfW with kill := true },
           others := s.others.map (fun w => { w with kill := true }) }

/-- `SpychWake.stop` (`wake.py` lines 260-268): `stop_listeners()` then set
the coordinator's own `kill` flag. -/
def SpychWake.stop (s : SysState) : SysState :=
  let s := SpychWake.stop_listeners s
  { s with coordKill := true }

/-- The bound method `self.stop` that `__init__` binds to each terminate
word (`wake.py` line 200), as a `Callback`: it mutates the state and never
raises. -/
def spychStopCb : Callback :=
  fun s => (SpychWake.stop s, none)

/-- The body of `SpychWake.wake` after the initial `stop_listeners()` call
(`wake.py` lines 293-304): drop the event if the system is locked,
otherwise acquire the lock, run the callback, convert a callback exception
into a raising `notify(..., notification_type="exception")` call, and clear
the lock in the `finally` block on every path. -/
def SpychWake.wakeAfterStop (m : WakeWordMap) (wake_word : String) (s : SysState) :
    SysState × Option String :=
  if s.coordLocked then (s, none)
  else
    let s := { s with coordLocked := true }
    let step : SysState × Option String :=
      match dictGet? m wake_word with
      | some cb => cb s
      | none => (s, some ("KeyError: " ++ wake_word))
    match step with
    | (s1, none) => ({ s1 with coordLocked := false }, none)
    | (s1, some e) =>
        ({ s1 with coordLocked := false },
         Notify.notify "SpychWake" "wake"
           ("Error in on_wake_fn for '" ++ wake_word ++ "': " ++ e) "exception")

/-- `SpychWake.wake` (`wake.py` lines 270-304): first `stop_listeners()`,
then the lock-guarded callback dispatch. -/
def SpychWake.wake (m : WakeWordMap) (wake_word : String) (s : SysState) :
    SysState × Option String :=
  SpychWake.wakeAfterStop m wake_word (SpychWake.stop_listeners s)

/-- The dict comprehension of `SpychWake.__init__` line 194:
`{k.lower(): v for k, v in wake_word_map.items()}`. -/
def initWakeWordMap (wake_word_map : WakeWordMap) : WakeWordMap :=
  wake_word_map.foldl (fun d p => dictInsert d (strLower p.1) p.2) []

/-- The terminate-word loop of `SpychWake.__init__` lines 197-200: each
(already lower-cased) terminate word must not already be a key of the map
being built (`ValueError` otherwise) and is then bound to `self.stop`. -/
def addTerminateWords (d : WakeWordMap) (tws : List String) :
    Except String WakeWordMap :=
  match tws with
  | [] => .ok d
  | w :: rest =>
    if dictContains d w then
      .error ("Terminate word '" ++ w ++ "' cannot also be a wake word.")
    else addTerminateWords (dictInsert d w spychStopCb) rest

/-- The fields of a constructed `SpychWake` object that the coordination
logic reads (`wake.py` lines 194-214); the whisper model is an external
port and carries no coordination state. -/
structure SpychWakeObj where
  wake_word_map : WakeWordMap
  terminate_words : List String
  wake_listener_count : Int
  wake_listener_time : ℚ
  wake_listener_max_processing_time : ℚ
  locked : Bool
  kill : Bool
  wake_listeners : List WorkerState

/-- `SpychWake.__init__` (`wake.py` lines 109-214): lower-case the wake-word
keys, lower-case and inject the terminate words (`ValueError` on a key
already present), store the scheduling parameters unvalidated, and build
`wake_listener_count` fresh unlocked listeners (`range` of a non-positive
count is empty).  No validation of the worker count is performed. -/
def SpychWake.init (wake_word_map : WakeWordMap) (terminate_words : Option (List String))
    (wake_listener_count : Int) (wake_listener_time : ℚ)
    (wake_listener_max_processing_time : ℚ) : Except String SpychWakeObj :=
  let m := initWakeWordMap wake_word_map
  let tws := match terminate_words with
    | some l => l.map strLower
    | none => []
  match addTerminateWords m tws with
  | .error e => .error e
  | .ok m =>
    .ok { wake_word_map := m
          terminate_words := tws
          wake_listener_count := wake_listener_count
          wake_listener_time := wake_listener_time
          wake_listener_max_processing_time := wake_listener_max_processing_time
          locked := false
          kill := false
          wake_listeners := List.replicate wake_listener_count.toNat ⟨false, false⟩ }

/-- Whether a Python expression returned normally (`.ok`) rather than
raising (`.error`). -/
def exceptOk : Except ε α → Bool
  | .ok _ => true
  | .error _ => false

/-- `pat` occurs as a contiguous run inside `l`. -/
def listContainsInfix (pat : List Char) : List Char → Bool
  | [] => pat.isPrefixOf []
  | c :: rest => pat.isPrefixOf (c :: rest) || listContainsInfix pat rest

/-- Python `wake_word in text` (`wake.py` line 99): substring containment. -/
def strContains (text pat : String) : Bool :=
  listContainsInfix pat.toList text.toList

/-- `SpychWakeListener.should_stop` (`wake.py` lines 35-53): if this
worker's `kill` flag or the coordinator's lock is set, reset both of this
worker's flags and report that the cycle should abort. -/
def SpychWakeListener.should_stop (s : SysState) : Bool × SysState :=
  if s.selfW.kill || s.coordLocked then
    (true, { s with selfW := { locked := false, kill := false } })
  else (false, s)

/-- Concurrent interference on the shared flags while the worker is inside
a blocking external call (`record`, `get_clean_audio_buffer`,
`transcribe`, or between segment checks). -/
def Interf : Type := SysState → SysState

/-- Consume one interference step (identity when none is scheduled). -/
def popEnv (env : List Interf) (s : SysState) : SysState × List Interf :=
  match env with
  | [] => (s, [])
  | f :: rest => (f s, rest)

/-- The observable outcome of one `SpychWakeListener.__call__` cycle: the
final shared state, the exception escaping the call (if any), the words
passed to `SpychWake.wake` (in order), and how many times the capture port
was invoked. -/
structure CallResult where
  state : SysState
  exc : Option String
  wakeCalls : List String
  recordings : Nat
deriving DecidableEq, Repr

/-- The segment-matching loop of `SpychWakeListener.__call__`
(`wake.py` lines 94-105): for each transcribed segment, re-check
`should_stop`, lower-case the segment text, scan the wake words in map
order for substring containment; on the first match call
`SpychWake.wake`, clear both own flags and return (an exception from
`wake` propagates before the flags are cleared); with no match in any
segment, clear both own flags and return. -/
def scanLoop (m : WakeWordMap) (wake_words : List String) (env : List Interf)
    (segs : List String) (s : SysState) : CallResult :=
  match segs with
  | [] => ⟨{ s with selfW := { locked := false, kill := false } }, none, [], 0⟩
  | seg :: rest =>
    match popEnv env s with
    | (s, env) =>
      match SpychWakeListener.should_stop s with
      | (true, s) => ⟨s, none, [], 0⟩
      | (false, s) =>
        let text := strLower seg
        match wake_words.find? (fun w => strContains text w) with
        | some word =>
          match SpychWake.wake m word s with
          | (s, some e) => ⟨s, some e, [word], 0⟩
          | (s, none) =>
            ⟨{ s with selfW := { locked := false, kill := false } }, none, [word], 0⟩
        | none => scanLoop m wake_words env rest s

/-- `SpychWakeListener.__call__` (`wake.py` lines 55-105).  The `segs`
parameter is the sequence of text segments the transcription port returns
for the audio recorded this cycle; `env` supplies the interference applied
during the three blocking external calls and between segment checks. -/
def SpychWakeListener.call (m : WakeWordMap) (segs : List String)
    (env : List Interf) (s : SysState) : CallResult :=
  if s.selfW.locked then ⟨s, none, [], 0⟩
  else
    match SpychWakeListener.should_stop s with
    | (true, s) => ⟨s, none, [], 0⟩
    | (false, s) =>
      let s := { s with selfW := { s.selfW with locked := true } }
      match popEnv env s with
      | (s, env) =>
        match SpychWakeListener.should_stop s with
        | (true, s) => ⟨s, none, [], 1⟩
        | (false, s) =>
          match popEnv env s with
          | (s, env) =>
            match SpychWakeListener.should_stop s with
            | (true, s) => ⟨s, none, [], 1⟩
            | (false, s) =>
              match popEnv env s with
              | (s, env) =>
                let wake_words := dictKeys m
                let r := scanLoop m wake_words env segs s
                ⟨r.state, r.exc, r.wakeCalls, 1⟩

/-- What the spec's matching rule prescribes (spec §4.1 step 7): first
segment, first configured wake word contained in that segment's
lower-cased text. -/
def specFirstMatch (wake_words : List String) (segs : List String) : Option String :=
  match segs with
  | [] => none
  | seg :: rest =>
    match wake_words.find? (fun w => strContains (strLower seg) w) with
    | some w => some w
    | none => specFirstMatch wake_words rest

/-- The observable actions of the scheduling loop `SpychWake.start`
(`wake.py` lines 236-246): launching a worker thread, and sleeping for the
stagger interval. -/
inductive SchedEvent where
  | launch
  | sleep (d : ℚ)
deriving DecidableEq, Repr

/-- The stagger expression of `SpychWake.start` lines 243-246:
`(wake_listener_time + wake_listener_max_processing_time) / wake_listener_count`. -/
def startSleep (t p : ℚ) (count : Int) : ℚ :=
  (t + p) / (count : ℚ)

/-- The `for listener in self.wake_listeners` body of `SpychWake.start`
(`wake.py` lines 237-246), run sequentially from a point where `rem`
workers of the current pass are still to be considered.  Each iteration
first checks the coordinator's `kill` flag (clearing it and returning when
set — the result's `Bool` is true on that exit), launches the worker as a
fire-and-forget thread only when the coordinator is not locked, and always
sleeps the stagger interval. -/
def startPassRun (t p : ℚ) (count : Int) (rem : Nat) (s : SysState) :
    List SchedEvent × SysState × Bool :=
  match rem with
  | 0 => ([], s, false)
  | rem' + 1 =>
    if s.coordKill then ([], { s with coordKill := false }, true)
    else
      let evs := (if !s.coordLocked then [SchedEvent.launch] else []) ++
        [SchedEvent.sleep (startSleep t p count)]
      match startPassRun t p count rem' s with
      | (rest, s1, exited) => (evs ++ rest, s1, exited)

/-- The unbounded `while True` of `SpychWake.start` (`wake.py` line 236),
unrolled for `fuel` passes over the pool of `count.toNat` workers (the
length of `wake_listeners`); the loop itself only returns through the
per-worker kill check inside a pass. -/
def startRun (t p : ℚ) (count : Int) (fuel : Nat) (s : SysState) :
    List SchedEvent × SysState × Bool :=
  match fuel with
  | 0 => ([], s, false)
  | fuel' + 1 =>
    match startPassRun t p count count.toNat s with
    | (evs, s1, true) => (evs, s1, true)
    | (evs, s1, false) =>
      match startRun t p count fuel' s1 with
      | (rest, s2, exited) => (evs ++ rest, s2, exited)

/-- Total time slept across a list of scheduling events. -/
def sleepTotal (evs : List SchedEvent) : ℚ :=
  (evs.map (fun e => match e with | SchedEvent.sleep d => d | SchedEvent.launch => 0)).sum

/-- A benign callback for concrete scenarios: returns normally and leaves
the state alone (like a user callback that only performs external work). -/
def cbA : Callback := fun s => (s, none)

/-- A callback for concrete scenarios that raises an exception. -/
def cbBoom : Callback := fun s => (s, some "boom")

/-- An idle system: nothing locked, nothing killed, a pool of the
distinguished worker plus one other worker. -/
def s0 : SysState := ⟨false, false, ⟨false, false⟩, [⟨false, false⟩]⟩

/-- The wake-word map the spec scenario's construction produces:
`{"speech": cbA}` with terminate word `"terminate"` bound to the
coordinator's stop capability. -/
def scenarioMap : WakeWordMap := [("speech", cbA), ("terminate", spychStopCb)]

/-! ## Helper lemmas -/

theorem stop_listeners_coordLocked (s : SysState) :
    (SpychWake.stop_listeners s).coordLocked = s.coordLocked := rfl

theorem stop_listeners_coordKill (s : SysState) :
    (SpychWake.stop_listeners s).coordKill = s.coordKill := rfl

theorem stop_listeners_kills (s : SysState) :
    (SpychWake.stop_listeners s).selfW.kill = true ∧
    ∀ w ∈ (SpychWake.stop_listeners s).others, w.kill = true := by
  refine ⟨rfl, ?_⟩
  intro w hw
  simp only [SpychWake.stop_listeners, List.mem_map] at hw
  obtain ⟨v, _, rfl⟩ := hw
  rfl

/-! ## C1: error handling of a raising callback inside `wake` -/

/-- C1 (counterexample).  The claim says a raising callback's error is
caught and reported without escaping `wake`; in the code, the `except`
block reports it through `notify(..., notification_type="exception")`,
which itself raises, so the error does escape `wake`.  Concretely: with
callback `cbBoom` bound to `"w"`, `wake` propagates an exception instead
of returning normally. -/
theorem c1_callback_error_escapes_counterexample :
    (SpychWake.wake [("w", cbBoom)] "w" s0).2 =
      some "SpychWake.wake EXCEPTION: Error in on_wake_fn for 'w': boom" ∧
    (SpychWake.wake [("w", cbBoom)] "w" s0).2 ≠ none := by
  constructor
  · rfl
  · intro hc
    rw [show (SpychWake.wake [("w", cbBoom)] "w" s0).2 =
      some "SpychWake.wake EXCEPTION: Error in on_wake_fn for 'w': boom" from rfl] at hc
    exact Option.noConfusion hc

/-- C1 (amended).  When the lock is free and the callback bound to `word`
raises `e`, `wake` catches `e` but then re-raises it as a new exception
built by `notify` with type `"exception"` — the formatted error escapes
`wake` to its caller — while the `finally` block still clears the
coordinator's lock. -/
theorem c1_amended_wake_reraises (m : WakeWordMap) (word : String) (s : SysState)
    (cb : Callback) (s1 : SysState) (e : String)
    (hLock : s.coordLocked = false)
    (hcb : dictGet? m word = some cb)
    (hrun : cb { SpychWake.stop_listeners s with coordLocked := true } = (s1, some e)) :
    SpychWake.wake m word s =
      ({ s1 with coordLocked := false },
       some (notifyFormat "SpychWake" "wake" "exception"
         ("Error in on_wake_fn for '" ++ word ++ "': " ++ e))) := by
  unfold SpychWake.wake SpychWake.wakeAfterStop
  have hsl : (SpychWake.stop_listeners s).coordLocked = false := hLock
  simp only [hsl, Bool.false_eq_true, if_false, hcb, hrun, Notify.notify]
  rfl

/-- C1 (amended) witness: the concrete raising callback `cbBoom`. -/
theorem c1_amended_witness :
    SpychWake.wake [("w", cbBoom)] "w" s0 =
      (⟨false, false, ⟨false, true⟩, [⟨false, true⟩]⟩,
       some "SpychWake.wake EXCEPTION: Error in on_wake_fn for 'w': boom") :=
  c1_amended_wake_reraises [("w", cbBoom)] "w" s0 cbBoom
    ⟨true, false, ⟨false, true⟩, [⟨false, true⟩]⟩ "boom" rfl rfl rfl

/-! ## C2: the lock is released on every exit path of `wake` -/

/-- C2.  Whenever `wake` acquires the lock (the coordinator was not
locked at entry), the coordinator's `locked` flag is false in the state
`wake` leaves behind, on every path: callback missing, callback returning
normally, or callback raising (in which case the re-raised exception
escapes but the `finally` block has already cleared the lock). -/
theorem c2_lock_released_all_paths (m : WakeWordMap) (word : String) (s : SysState)
    (h : s.coordLocked = false) :
    ((SpychWake.wake m word s).1).coordLocked = false := by
  unfold SpychWake.wake SpychWake.wakeAfterStop
  have hsl : (SpychWake.stop_listeners s).coordLocked = false := h
  simp only [hsl, Bool.false_eq_true, if_false]
  cases hd : dictGet? m word with
  | none => rfl
  | some cb =>
    simp only []
    rcases hcb : cb { SpychWake.stop_listeners s with coordLocked := true } with ⟨s1, e⟩
    cases e <;> simp [hcb]

/-- C2 witness: a raising callback, the lock still ends up free. -/
theorem c2_witness :
    ((SpychWake.wake [("w", cbBoom)] "w" s0).1).coordLocked = false :=
  c2_lock_released_all_paths [("w", cbBoom)] "w" s0 rfl

/-! ## C3: `wake` kills all listeners first, then drops the event if locked -/

/-- C3.  Every call to `wake` first runs `stop_listeners`, which sets the
`kill` flag of every listener in the pool; if the coordinator is already
locked, `wake` then returns the kill-flagged state unchanged without
consulting the callback map and without raising — the wake event is
dropped, so a lock acquisition dispatches at most one callback. -/
theorem c3_wake_kills_then_drops_when_locked (m : WakeWordMap) (word : String)
    (s : SysState) :
    SpychWake.wake m word s = SpychWake.wakeAfterStop m word (SpychWake.stop_listeners s)
    ∧ (SpychWake.stop_listeners s).selfW.kill = true
    ∧ (∀ w ∈ (SpychWake.stop_listeners s).others, w.kill = true)
    ∧ (s.coordLocked = true →
        SpychWake.wake m word s = (SpychWake.stop_listeners s, none)) := by
  refine ⟨rfl, (stop_listeners_kills s).1, (stop_listeners_kills s).2, ?_⟩
  intro h
  unfold SpychWake.wake SpychWake.wakeAfterStop
  have hsl : (SpychWake.stop_listeners s).coordLocked = true := h
  simp [hsl]

/-- C3 witness: a locked system drops the wake event with all listeners
kill-flagged. -/
theorem c3_witness :
    SpychWake.wake [("w", cbBoom)] "w" ⟨true, false, ⟨false, false⟩, [⟨false, false⟩]⟩ =
      (SpychWake.stop_listeners ⟨true, false, ⟨false, false⟩, [⟨false, false⟩]⟩, none) ∧
    (SpychWake.stop_listeners
      (⟨true, false, ⟨false, false⟩, [⟨false, false⟩]⟩ : SysState)).selfW.kill = true :=
  ⟨(c3_wake_kills_then_drops_when_locked [("w", cbBoom)] "w" _).2.2.2 rfl,
   (c3_wake_kills_then_drops_when_locked [("w", cbBoom)] "w" _).2.1⟩

/-! ## C4: construction validation of terminate words -/

theorem find?_append_none {α : Type} {p : α → Bool} (d d' : List α)
    (h : d.find? p = none) : (d ++ d').find? p = d'.find? p := by
  induction d with
  | nil => rfl
  | cons a l ih =>
    cases hpa : p a with
    | true =>
      rw [List.find?_cons_of_pos _ hpa] at h
      exact absurd h (by simp)
    | false =>
      rw [List.find?_cons_of_neg _ (by simp [hpa])] at h
      rw [List.cons_append, List.find?_cons_of_neg _ (by simp [hpa])]
      exact ih h

theorem find?_append_some {α : Type} {p : α → Bool} (d d' : List α) (q : α)
    (h : d.find? p = some q) : (d ++ d').find? p = some q := by
  induction d with
  | nil => exact absurd h (by simp)
  | cons a l ih =>
    cases hpa : p a with
    | true =>
      rw [List.find?_cons_of_pos _ hpa] at h
      rw [List.cons_append, List.find?_cons_of_pos _ hpa]
      exact h
    | false =>
      rw [List.find?_cons_of_neg _ (by simp [hpa])] at h
      rw [List.cons_append, List.find?_cons_of_neg _ (by simp [hpa])]
      exact ih h

theorem dictContains_eq_false_find? {α : Type} (d : List (String × α)) (k : String)
    (h : dictContains d k = false) : d.find? (fun p => p.1 == k) = none := by
  rw [List.find?_eq_none]
  intro x hx
  simp only [dictContains, List.any_eq_false] at h
  exact fun hk => (h x hx) hk

theorem dictContains_insert_new {α : Type} (d : List (String × α)) (k k' : String) (v : α)
    (h : dictContains d k = false) :
    dictContains (dictInsert d k v) k' = (dictContains d k' || (k == k')) := by
  have h' : (d.any fun p => p.1 == k) = false := h
  simp only [dictInsert, dictContains, h', Bool.false_eq_true, if_false,
    List.any_append, List.any_cons, List.any_nil, Bool.or_false]

theorem dictGet?_insert_new_self {α : Type} (d : List (String × α)) (k : String) (v : α)
    (h : dictContains d k = false) :
    dictGet? (dictInsert d k v) k = some v := by
  have h' : (d.any fun p => p.1 == k) = false := h
  simp only [dictInsert, dictContains, h', Bool.false_eq_true, if_false, dictGet?]
  rw [find?_append_none _ _ (dictContains_eq_false_find? d k h)]
  simp [List.find?_cons]

theorem dictGet?_append_left {α : Type} (d d' : List (String × α)) (k : String) (v : α)
    (h : dictGet? d k = some v) : dictGet? (d ++ d') k = some v := by
  unfold dictGet? at h ⊢
  cases hf : d.find? (fun p => p.1 == k) with
  | none => rw [hf] at h; exact absurd h (by simp)
  | some q =>
    rw [hf] at h
    rw [find?_append_some _ _ _ hf]
    exact h

theorem addTerminateWords_preserves (tws : List String) (d r : WakeWordMap)
    (k : String) (v : Callback)
    (hok : addTerminateWords d tws = .ok r) (h : dictGet? d k = some v) :
    dictGet? r k = some v := by
  induction tws generalizing d with
  | nil =>
    simp only [addTerminateWords, Except.ok.injEq] at hok
    exact hok ▸ h
  | cons w rest ih =>
    simp only [addTerminateWords] at hok
    by_cases hc : dictContains d w = true
    · rw [if_pos hc] at hok; exact absurd hok (by simp)
    · have hc' : dictContains d w = false := by simpa using hc
      rw [if_neg (by simp [hc'])] at hok
      refine ih (dictInsert d w spychStopCb) hok ?_
      have h'' : (d.any fun p => p.1 == w) = false := hc'
      simp only [dictInsert, dictContains, h'', Bool.false_eq_true, if_false]
      exact dictGet?_append_left d [(w, spychStopCb)] k v h

theorem addTerminateWords_binds (tws : List String) (d r : WakeWordMap)
    (hok : addTerminateWords d tws = .ok r) :
    ∀ w ∈ tws, dictGet? r w = some spychStopCb := by
  induction tws generalizing d with
  | nil => intro w hw; exact absurd hw (List.not_mem_nil w)
  | cons w0 rest ih =>
    intro w hw
    simp only [addTerminateWords] at hok
    by_cases hc : dictContains d w0 = true
    · rw [if_pos hc] at hok; exact absurd hok (by simp)
    · have hc' : dictContains d w0 = false := by simpa using hc
      rw [if_neg (by simp [hc'])] at hok
      rcases List.mem_cons.mp hw with rfl | hw'
      · exact addTerminateWords_preserves rest _ r w spychStopCb hok
          (dictGet?_insert_new_self d w spychStopCb hc')
      · exact ih (dictInsert d w0 spychStopCb) hok w hw'

theorem addTerminateWords_ok_iff (tws : List String) (d : WakeWordMap) :
    exceptOk (addTerminateWords d tws) = true ↔
      (tws.Nodup ∧ ∀ w ∈ tws, dictContains d w = false) := by
  induction tws generalizing d with
  | nil => simp [addTerminateWords, exceptOk]
  | cons w rest ih =>
    simp only [addTerminateWords]
    by_cases hc : dictContains d w = true
    · rw [if_pos hc]
      simp only [exceptOk, Bool.false_eq_true, false_iff]
      rintro ⟨-, hall⟩
      exact absurd (hall w (List.mem_cons_self w rest)) (by simp [hc])
    · have hc' : dictContains d w = false := by simpa using hc
      rw [if_neg (by simp [hc'])]
      rw [ih]
      constructor
      · rintro ⟨hnd, hall⟩
        refine ⟨List.nodup_cons.mpr ⟨?_, hnd⟩, ?_⟩
        · intro hmem
          have := hall w hmem
          rw [dictContains_insert_new d w w spychStopCb hc'] at this
          simp at this
        · intro w' hw'
          rcases List.mem_cons.mp hw' with rfl | hw''
          · exact hc'
          · have := hall w' hw''
            rw [dictContains_insert_new d w w' spychStopCb hc'] at this
            exact (Bool.or_eq_false_iff.mp this).1
      · rintro ⟨hnd, hall⟩
        obtain ⟨hnm, hnd'⟩ := List.nodup_cons.mp hnd
        refine ⟨hnd', ?_⟩
        intro w' hw'
        rw [dictContains_insert_new d w w' spychStopCb hc']
        refine Bool.or_eq_false_iff.mpr ⟨hall w' (List.mem_cons_of_mem w hw'), ?_⟩
        simp only [beq_eq_false_iff_ne, ne_eq]
        rintro rfl
        exact hnm hw'

theorem init_ok_eq (u : WakeWordMap) (tws : List String) (c : Int) (t p : ℚ) :
    exceptOk (SpychWake.init u (some tws) c t p) =
      exceptOk (addTerminateWords (initWakeWordMap u) (tws.map strLower)) := by
  unfold SpychWake.init
  cases h : addTerminateWords (initWakeWordMap u) (tws.map strLower) <;> simp [h, exceptOk]

theorem init_ok_map (u : WakeWordMap) (tws : List String) (c : Int) (t p : ℚ)
    (r : SpychWakeObj) (hr : SpychWake.init u (some tws) c t p = .ok r) :
    addTerminateWords (initWakeWordMap u) (tws.map strLower) = .ok r.wake_word_map := by
  simp only [SpychWake.init] at hr
  cases hok : addTerminateWords (initWakeWordMap u) (tws.map strLower) with
  | error e => rw [hok] at hr; exact absurd hr (by simp)
  | ok mm =>
    rw [hok] at hr
    simp only [Except.ok.injEq] at hr
    rw [← hr]

/-- C4 (amended).  Construction lower-cases all words; it succeeds exactly
when the lower-cased terminate words are pairwise distinct AND none of
them equals a lower-cased wake-word key (the code checks each terminate
word against the map it is building, so a duplicated terminate word also
collides); on success each terminate word is bound in the map to the
coordinator's own stop capability. -/
theorem c4_amended_construction_characterization (u : WakeWordMap) (tws : List String)
    (c : Int) (t p : ℚ) :
    (exceptOk (SpychWake.init u (some tws) c t p) = true ↔
      ((tws.map strLower).Nodup ∧
       ∀ w ∈ tws, dictContains (initWakeWordMap u) (strLower w) = false))
    ∧ (∀ r, SpychWake.init u (some tws) c t p = .ok r →
        ∀ w ∈ tws, dictGet? r.wake_word_map (strLower w) = some spychStopCb) := by
  constructor
  · rw [init_ok_eq, addTerminateWords_ok_iff]
    constructor
    · rintro ⟨hnd, hall⟩
      refine ⟨hnd, ?_⟩
      intro w hw
      exact hall (strLower w) (List.mem_map.mpr ⟨w, hw, rfl⟩)
    · rintro ⟨hnd, hall⟩
      refine ⟨hnd, ?_⟩
      intro w' hw'
      obtain ⟨w, hw, rfl⟩ := List.mem_map.mp hw'
      exact hall w hw
  · intro r hr w hw
    exact addTerminateWords_binds (tws.map strLower) _ r.wake_word_map
      (init_ok_map u tws c t p r hr) (strLower w) (List.mem_map.mpr ⟨w, hw, rfl⟩)

/-- C4 (counterexample).  With wake-word map `{"w": cbA}` and terminate
words `["t", "t"]`, no lower-cased terminate word equals a lower-cased
wake-word key, yet construction raises the terminate-word `ValueError`
(the second `"t"` is checked against the map after the first `"t"` was
injected), refuting the claim's "succeeds exactly when". -/
theorem c4_counterexample_duplicate_terminate :
    dictContains (initWakeWordMap [("w", cbA)]) (strLower "t") = false
    ∧ exceptOk (SpychWake.init [("w", cbA)] (some ["t", "t"]) 3 2 (1/2)) = false :=
  ⟨rfl, rfl⟩

/-- C4 (amended) witness: the spec scenario's own configuration
(`{"speech": cbA}`, terminate `["terminate"]`) satisfies the
characterization, so construction succeeds and binds `"terminate"` to the
stop capability. -/
theorem c4_witness :
    exceptOk (SpychWake.init [("speech", cbA)] (some ["terminate"]) 3 2 (1/2)) = true ∧
    dictGet? scenarioMap "terminate" = some spychStopCb := by
  constructor
  · exact (c4_amended_construction_characterization [("speech", cbA)] ["terminate"]
      3 2 (1/2)).1.mpr ⟨by decide, by decide⟩
  · exact (c4_amended_construction_characterization [("speech", cbA)] ["terminate"]
      3 2 (1/2)).2 ⟨scenarioMap, ["terminate"], 3, 2, 1/2, false, false,
        List.replicate 3 ⟨false, false⟩⟩ rfl "terminate" (List.mem_cons_self _ _)

/-! ## C6: the stagger interval -/

theorem sleepTotal_append (l1 l2 : List SchedEvent) :
    sleepTotal (l1 ++ l2) = sleepTotal l1 + sleepTotal l2 := by
  simp [sleepTotal, List.map_append, List.sum_append]

theorem startPassRun_sleeps (t p : ℚ) (c : Int) (rem : Nat) (s : SysState) :
    ∀ d, SchedEvent.sleep d ∈ (startPassRun t p c rem s).1 → d = startSleep t p c := by
  induction rem generalizing s with
  | zero => intro d hd; simp [startPassRun] at hd
  | succ r ih =>
    intro d hd
    rw [startPassRun] at hd
    by_cases hk : s.coordKill = true
    · rw [if_pos hk] at hd; simp at hd
    · rw [if_neg hk] at hd
      rcases hrec : startPassRun t p c r s with ⟨rest, s1, e⟩
      rw [hrec] at hd
      simp only [List.append_assoc, List.mem_append] at hd
      rcases hd with hd | hd | hd
      · by_cases hl : s.coordLocked = true <;> simp [hl] at hd
      · simp at hd; exact hd
      · exact ih s d (by rw [hrec]; exact hd)

theorem startPassRun_no_kill (t p : ℚ) (c : Int) (rem : Nat) (s : SysState)
    (h : s.coordKill = false) :
    startPassRun t p c rem s =
      ((List.replicate rem ((if !s.coordLocked then [SchedEvent.launch] else []) ++
        [SchedEvent.sleep (startSleep t p c)])).flatten, s, false) := by
  induction rem with
  | zero => simp [startPassRun]
  | succ r ih =>
    rw [startPassRun, if_neg (by simp [h]), ih]
    simp [List.replicate_succ]

theorem sleepTotal_block (t p : ℚ) (c : Int) (b : Bool) :
    sleepTotal ((if b then [SchedEvent.launch] else []) ++
      [SchedEvent.sleep (startSleep t p c)]) = startSleep t p c := by
  cases b <;> simp [sleepTotal]

/-- C6.  In the scheduling loop of `start`, every sleep between
consecutive worker-launch considerations lasts exactly
`(wake_listener_time + wake_listener_max_processing_time) /
wake_listener_count` seconds, on every pass and from any point of a pass;
consequently one full pass over the pool of `count` workers sleeps a total
of exactly `wake_listener_time + wake_listener_max_processing_time`
seconds (the coverage property). -/
theorem c6_stagger_interval (t p : ℚ) (c : Int) (rem : Nat) (s : SysState)
    (hk : s.coordKill = false) (hc : 1 ≤ c) :
    (∀ d, SchedEvent.sleep d ∈ (startPassRun t p c rem s).1 →
        d = (t + p) / (c : ℚ))
    ∧ sleepTotal (startPassRun t p c c.toNat s).1 = t + p := by
  constructor
  · exact fun d hd => startPassRun_sleeps t p c rem s d hd
  · rw [startPassRun_no_kill t p c c.toNat s hk]
    have hblock := sleepTotal_block t p c (!s.coordLocked)
    have hjoin : ∀ n : Nat, sleepTotal
        ((List.replicate n ((if !s.coordLocked then [SchedEvent.launch] else []) ++
          [SchedEvent.sleep (startSleep t p c)])).flatten) = n * startSleep t p c := by
      intro n
      induction n with
      | zero => simp [sleepTotal]
      | succ k ihk =>
        rw [List.replicate_succ, List.flatten_cons, sleepTotal_append, hblock, ihk]
        push_cast
        ring
    rw [hjoin]
    have hcq : ((c.toNat : ℚ)) = (c : ℚ) := by
      have : ((c.toNat : ℤ)) = c := Int.toNat_of_nonneg (by omega)
      exact_mod_cast congrArg (fun z : ℤ => (z : ℚ)) this
    rw [hcq, startSleep]
    have hne : (c : ℚ) ≠ 0 := by
      have : (1 : ℚ) ≤ (c : ℚ) := by exact_mod_cast hc
      linarith
    field_simp

/-- C6 witness: three workers, listen 2 s, processing 1/2 s — each sleep is
5/6 s and one pass sleeps 5/2 s in total. -/
theorem c6_witness :
    sleepTotal (startPassRun 2 (1/2) 3 (Int.toNat 3) s0).1 = 2 + 1/2 :=
  (c6_stagger_interval 2 (1/2) 3 3 s0 rfl (by decide)).2

/-! ## C8: `stop` causes `start` to return within one pass -/

/-- C8.  `SpychWake.stop` sets the coordinator's `kill` flag and the
`kill` flag of every listener in the pool; from that state the scheduling
loop returns at the very next per-worker kill check — with no worker of
the current pass left to consider, at the first check of the next pass —
clearing the kill request as it returns, having launched no worker and
slept no interval after the check. -/
theorem c8_stop_terminates_start (t p : ℚ) (c : Int) (fuel rem : Nat) (s : SysState) :
    ((SpychWake.stop s).coordKill = true ∧ (SpychWake.stop s).selfW.kill = true ∧
      ∀ w ∈ (SpychWake.stop s).others, w.kill = true)
    ∧ (1 ≤ rem → startPassRun t p c rem (SpychWake.stop s) =
        ([], { SpychWake.stop s with coordKill := false }, true))
    ∧ (1 ≤ fuel → 1 ≤ c.toNat → startRun t p c fuel (SpychWake.stop s) =
        ([], { SpychWake.stop s with coordKill := false }, true)) := by
  refine ⟨⟨rfl, (stop_listeners_kills s).1, ?_⟩, ?_, ?_⟩
  · intro w hw
    exact (stop_listeners_kills s).2 w hw
  · intro hrem
    match rem, hrem with
    | r + 1, _ =>
      have hks : (SpychWake.stop s).coordKill = true := rfl
      rw [startPassRun, if_pos hks]
  · intro hfuel hcnt
    match fuel, hfuel with
    | f + 1, _ =>
      rw [startRun]
      match hc2 : c.toNat, hcnt with
      | r + 1, _ =>
        have hks : (SpychWake.stop s).coordKill = true := rfl
        rw [startPassRun, if_pos hks]

/-- C8 witness: a three-worker pool mid-pass. -/
theorem c8_witness :
    (SpychWake.stop s0).coordKill = true ∧
    startPassRun 2 (1/2) 3 2 (SpychWake.stop s0) =
      ([], { SpychWake.stop s0 with coordKill := false }, true) ∧
    startRun 2 (1/2) 3 1 (SpychWake.stop s0) =
      ([], { SpychWake.stop s0 with coordKill := false }, true) :=
  ⟨(c8_stop_terminates_start 2 (1/2) 3 1 2 s0).1.1,
   (c8_stop_terminates_start 2 (1/2) 3 1 2 s0).2.1 (by decide),
   (c8_stop_terminates_start 2 (1/2) 3 1 2 s0).2.2 (by decide) (by decide)⟩

/-! ## C9: no validation of the worker count at construction -/

theorem init_ok_listeners (u : WakeWordMap) (tws : List String) (c : Int) (t p : ℚ)
    (r : SpychWakeObj) (hr : SpychWake.init u (some tws) c t p = .ok r) :
    r.wake_listeners = List.replicate c.toNat ⟨false, false⟩ := by
  simp only [SpychWake.init] at hr
  cases hok : addTerminateWords (initWakeWordMap u) (tws.map strLower) with
  | error e => rw [hok] at hr; exact absurd hr (by simp)
  | ok mm =>
    rw [hok] at hr
    simp only [Except.ok.injEq] at hr
    rw [← hr]

/-- C9 (counterexample).  The claim says any `wake_listener_count < 1` is
rejected with a configuration error at construction; in the code no such
check exists: construction with `wake_listener_count = 0` succeeds (with
an empty listener pool) and raises nothing. -/
theorem c9_counterexample_zero_workers :
    exceptOk (SpychWake.init [("w", cbA)] none 0 2 (1/2)) = true ∧
    SpychWake.init [("w", cbA)] none 0 2 (1/2) =
      .ok ⟨[("w", cbA)], [], 0, 2, 1/2, false, false, []⟩ := ⟨rfl, rfl⟩

/-- C9 (amended).  `__init__` performs no validation of
`wake_listener_count`: for every count < 1, construction still succeeds
whenever the terminate-word check passes, producing an empty listener
pool, and no configuration error is raised for the invalid count.  The
scheduling loop of `start` then iterates over the empty pool: the body of
`for listener in self.wake_listeners` never executes, so every pass emits
no launch and no sleep (the stagger division is never reached) and the
loop never returns through its per-worker kill check — `start` spins
forever, whatever the state, however many passes are unrolled. -/
theorem c9_amended_no_count_validation (u : WakeWordMap) (tws : List String)
    (c : Int) (t p : ℚ) (hc : c < 1)
    (hw : exceptOk (addTerminateWords (initWakeWordMap u) (tws.map strLower)) = true) :
    exceptOk (SpychWake.init u (some tws) c t p) = true ∧
    (∀ r, SpychWake.init u (some tws) c t p = .ok r → r.wake_listeners = []) ∧
    (∀ fuel : Nat, ∀ s : SysState, startRun t p c fuel s = ([], s, false)) := by
  refine ⟨?_, ?_, ?_⟩
  · rw [init_ok_eq]; exact hw
  · intro r hr
    rw [init_ok_listeners u tws c t p r hr]
    have : c.toNat = 0 := by omega
    rw [this]
    rfl
  · have h0 : c.toNat = 0 := by omega
    intro fuel
    induction fuel with
    | zero => intro s; rfl
    | succ f ih =>
      intro s
      rw [startRun, h0]
      rw [show startPassRun t p c 0 s = ([], s, false) from rfl]
      show (match startRun t p c f s with
        | (rest, s2, exited) => (([] : List SchedEvent) ++ rest, s2, exited)) = ([], s, false)
      rw [ih s]
      rfl

/-- C9 (amended) witness: count 0; even a state with a pending stop
request (`coordKill = true`) never makes the empty-pool loop return. -/
theorem c9_witness :
    exceptOk (SpychWake.init [("w", cbA)] (some []) 0 2 (1/2)) = true ∧
    (⟨[("w", cbA)], [], 0, 2, 1/2, false, false, []⟩ : SpychWakeObj).wake_listeners = [] ∧
    startRun 2 (1/2) 0 5 (SpychWake.stop s0) = ([], SpychWake.stop s0, false) :=
  ⟨(c9_amended_no_count_validation [("w", cbA)] [] 0 2 (1/2) (by decide) rfl).1,
   (c9_amended_no_count_validation [("w", cbA)] [] 0 2 (1/2) (by decide) rfl).2.1
     ⟨[("w", cbA)], [], 0, 2, 1/2, false, false, []⟩ rfl,
   (c9_amended_no_count_validation [("w", cbA)] [] 0 2 (1/2) (by decide) rfl).2.2
     5 (SpychWake.stop s0)⟩

/-! ## Worker-cycle lemmas -/

theorem lockedSkip (m : WakeWordMap) (segs : List String) (env : List Interf)
    (s : SysState) (h : s.selfW.locked = true) :
    SpychWakeListener.call m segs env s = ⟨s, none, [], 0⟩ := by
  unfold SpychWakeListener.call
  rw [if_pos h]

theorem should_stop_false (s : SysState) (h1 : s.selfW.kill = false)
    (h2 : s.coordLocked = false) :
    SpychWakeListener.should_stop s = (false, s) := by
  unfold SpychWakeListener.should_stop
  rw [h1, h2]
  rfl

theorem should_stop_true (s : SysState) (h : (s.selfW.kill || s.coordLocked) = true) :
    SpychWakeListener.should_stop s =
      (true, { s with selfW := ⟨false, false⟩ }) := by
  unfold SpychWakeListener.should_stop
  rw [if_pos h]

theorem scanLoop_wakeCalls (m : WakeWordMap) (ww : List String) (segs : List String)
    (s : SysState) (h1 : s.selfW.kill = false) (h2 : s.coordLocked = false) :
    (scanLoop m ww [] segs s).wakeCalls = (specFirstMatch ww segs).toList := by
  induction segs with
  | nil => simp [scanLoop, specFirstMatch]
  | cons seg rest ih =>
    rw [show scanLoop m ww [] (seg :: rest) s =
      (match SpychWakeListener.should_stop s with
      | (true, s) => ⟨s, none, [], 0⟩
      | (false, s) =>
        match ww.find? (fun w => strContains (strLower seg) w) with
        | some word =>
          match SpychWake.wake m word s with
          | (s, some e) => ⟨s, some e, [word], 0⟩
          | (s, none) =>
            ⟨{ s with selfW := { locked := false, kill := false } }, none, [word], 0⟩
        | none => scanLoop m ww [] rest s) from rfl]
    rw [should_stop_false s h1 h2]
    rw [specFirstMatch]
    cases hf : ww.find? (fun w => strContains (strLower seg) w) with
    | some w =>
      simp only
      rcases hw : SpychWake.wake m w s with ⟨s1, e⟩
      cases e <;> simp
    | none =>
      simp only
      exact ih

theorem scanLoop_match (m : WakeWordMap) (ww : List String) (segs : List String)
    (s : SysState) (h1 : s.selfW.kill = false) (h2 : s.coordLocked = false)
    (w : String) (hm : specFirstMatch ww segs = some w) :
    scanLoop m ww [] segs s =
      (match SpychWake.wake m w s with
      | (s1, some e) => ⟨s1, some e, [w], 0⟩
      | (s1, none) =>
        ⟨{ s1 with selfW := ⟨false, false⟩ }, none, [w], 0⟩) := by
  induction segs with
  | nil => simp [specFirstMatch] at hm
  | cons seg rest ih =>
    rw [specFirstMatch] at hm
    rw [show scanLoop m ww [] (seg :: rest) s =
      (match SpychWakeListener.should_stop s with
      | (true, s) => ⟨s, none, [], 0⟩
      | (false, s) =>
        match ww.find? (fun w => strContains (strLower seg) w) with
        | some word =>
          match SpychWake.wake m word s with
          | (s, some e) => ⟨s, some e, [word], 0⟩
          | (s, none) =>
            ⟨{ s with selfW := { locked := false, kill := false } }, none, [word], 0⟩
        | none => scanLoop m ww [] rest s) from rfl]
    rw [should_stop_false s h1 h2]
    cases hf : ww.find? (fun w' => strContains (strLower seg) w') with
    | some w0 =>
      rw [hf] at hm
      simp only [Option.some.injEq] at hm
      subst hm
      simp only
    | none =>
      rw [hf] at hm
      simp only
      exact ih hm

theorem call_clean (m : WakeWordMap) (segs : List String) (s : SysState)
    (h1 : s.selfW.locked = false) (h2 : s.selfW.kill = false)
    (h3 : s.coordLocked = false) :
    SpychWakeListener.call m segs [] s =
      ⟨(scanLoop m (dictKeys m) [] segs { s with selfW := ⟨true, false⟩ }).state,
       (scanLoop m (dictKeys m) [] segs { s with selfW := ⟨true, false⟩ }).exc,
       (scanLoop m (dictKeys m) [] segs { s with selfW := ⟨true, false⟩ }).wakeCalls,
       1⟩ := by
  unfold SpychWakeListener.call
  rw [if_neg (by simp [h1])]
  rw [should_stop_false s h2 h3]
  have hsw : ({ s.selfW with locked := true } : WorkerState) = ⟨true, false⟩ := by
    show (⟨true, s.selfW.kill⟩ : WorkerState) = ⟨true, false⟩
    rw [h2]
  simp only [hsw, popEnv]
  rw [should_stop_false { s with selfW := ⟨true, false⟩ } rfl h3]
  simp only [popEnv]
  rw [should_stop_false { s with selfW := ⟨true, false⟩ } rfl h3]

/-! ## C5: first match wins -/

/-- C5.  A listener-worker cycle (run without interference from a clean
state) scans the transcribed segments in order and, within each segment's
lower-cased text, tests the wake words in map order for substring
containment: the words passed to `wake` are exactly the spec's
first-match result (one `wake` call on a match, none otherwise), and once
a segment matches, the segments after it are irrelevant to the outcome.
In the spec scenario — map `{"speech": cbA}`, terminate `["terminate"]`,
segment `"please say speech now"` — `wake("speech")` fires, bound to
`cbA`, not to the terminate handler (the stop capability is not invoked:
no kill flag is requested of the scheduling loop). -/
theorem c5_first_match_wins (m : WakeWordMap) (segs : List String) (s : SysState)
    (h1 : s.selfW.locked = false) (h2 : s.selfW.kill = false)
    (h3 : s.coordLocked = false) :
    ((SpychWakeListener.call m segs [] s).wakeCalls =
      (specFirstMatch (dictKeys m) segs).toList)
    ∧ (∀ seg rest rest' w,
        (dictKeys m).find? (fun w' => strContains (strLower seg) w') = some w →
        SpychWakeListener.call m (seg :: rest) [] s =
          SpychWakeListener.call m (seg :: rest') [] s)
    ∧ (SpychWakeListener.call scenarioMap ["please say speech now"] [] s0).wakeCalls
        = ["speech"]
    ∧ (SpychWakeListener.call scenarioMap ["please say speech now"] [] s0).state.coordKill
        = false
    ∧ dictGet? scenarioMap "speech" = some cbA := by
  refine ⟨?_, ?_, rfl, rfl, rfl⟩
  · rw [call_clean m segs s h1 h2 h3]
    exact scanLoop_wakeCalls m (dictKeys m) segs _ rfl h3
  · intro seg rest rest' w hf
    have hm : ∀ l : List String, specFirstMatch (dictKeys m) (seg :: l) = some w := by
      intro l
      rw [specFirstMatch, hf]
    rw [call_clean m (seg :: rest) s h1 h2 h3, call_clean m (seg :: rest') s h1 h2 h3]
    rw [scanLoop_match m (dictKeys m) (seg :: rest)
      { s with selfW := ⟨true, false⟩ } rfl h3 w (hm rest)]
    rw [scanLoop_match m (dictKeys m) (seg :: rest')
      { s with selfW := ⟨true, false⟩ } rfl h3 w (hm rest')]

/-- C5 witness: the spec scenario discharges the hypotheses. -/
theorem c5_witness :
    (SpychWakeListener.call scenarioMap ["please say speech now"] [] s0).wakeCalls =
      (specFirstMatch (dictKeys scenarioMap) ["please say speech now"]).toList :=
  (c5_first_match_wins scenarioMap ["please say speech now"] s0 rfl rfl rfl).1

/-! ## C7: the checkpoint discipline of a worker cycle -/

/-- C7.  (a) A worker whose own `locked` flag is set returns immediately:
no recording, no wake call, no flag (or any state) modified.  (b) At
checkpoint A (before recording): if `kill` or the coordinator's lock is
set, the worker clears both of its own flags and aborts with nothing
recorded.  (c) At checkpoint B (after recording, where interference `f`
ran during the blocking capture): if the flags are then set, the worker
clears both its flags and aborts after exactly one recording.  (d) The
same at checkpoint C (interference `g` during buffer cleaning).  (e) The
same at the per-segment checkpoint before matching each segment
(interference h during transcription). -/
theorem c7_checkpoint_discipline (m : WakeWordMap) (segs : List String)
    (env : List Interf) (s : SysState) (f g h : Interf) :
    (s.selfW.locked = true →
      SpychWakeListener.call m segs env s = ⟨s, none, [], 0⟩)
    ∧ (s.selfW.locked = false → (s.selfW.kill || s.coordLocked) = true →
        SpychWakeListener.call m segs env s =
          ⟨{ s with selfW := ⟨false, false⟩ }, none, [], 0⟩)
    ∧ (s.selfW.locked = false → s.selfW.kill = false → s.coordLocked = false →
        ((f { s with selfW := ⟨true, false⟩ }).selfW.kill ||
          (f { s with selfW := ⟨true, false⟩ }).coordLocked) = true →
        SpychWakeListener.call m segs [f] s =
          ⟨{ f { s with selfW := ⟨true, false⟩ } with selfW := ⟨false, false⟩ },
           none, [], 1⟩)
    ∧ (s.selfW.locked = false → s.selfW.kill = false → s.coordLocked = false →
        ((f { s with selfW := ⟨true, false⟩ }).selfW.kill ||
          (f { s with selfW := ⟨true, false⟩ }).coordLocked) = false →
        ((g (f { s with selfW := ⟨true, false⟩ })).selfW.kill ||
          (g (f { s with selfW := ⟨true, false⟩ })).coordLocked) = true →
        SpychWakeListener.call m segs [f, g] s =
          ⟨{ g (f { s with selfW := ⟨true, false⟩ }) with selfW := ⟨false, false⟩ },
           none, [], 1⟩)
    ∧ (∀ seg rest, s.selfW.locked = false → s.selfW.kill = false → s.coordLocked = false →
        ((f { s with selfW := ⟨true, false⟩ }).selfW.kill ||
          (f { s with selfW := ⟨true, false⟩ }).coordLocked) = false →
        ((g (f { s with selfW := ⟨true, false⟩ })).selfW.kill ||
          (g (f { s with selfW := ⟨true, false⟩ })).coordLocked) = false →
        ((h (g (f { s with selfW := ⟨true, false⟩ }))).selfW.kill ||
          (h (g (f { s with selfW := ⟨true, false⟩ }))).coordLocked) = true →
        SpychWakeListener.call m (seg :: rest) [f, g, h] s =
          ⟨{ h (g (f { s with selfW := ⟨true, false⟩ })) with selfW := ⟨false, false⟩ },
           none, [], 1⟩) := by
  refine ⟨fun hl => lockedSkip m segs env s hl, ?_, ?_, ?_, ?_⟩
  · intro hl hk
    unfold SpychWakeListener.call
    rw [if_neg (by simp [hl]), should_stop_true s hk]
  · intro hl hk hcl hstop
    unfold SpychWakeListener.call
    rw [if_neg (by simp [hl]), should_stop_false s hk hcl]
    have hsw : ({ s.selfW with locked := true } : WorkerState) = ⟨true, false⟩ := by
      show (⟨true, s.selfW.kill⟩ : WorkerState) = ⟨true, false⟩
      rw [hk]
    simp only [hsw, popEnv]
    rw [should_stop_true _ hstop]
  · intro hl hk hcl hpassB hstopC
    unfold SpychWakeListener.call
    rw [if_neg (by simp [hl]), should_stop_false s hk hcl]
    have hsw : ({ s.selfW with locked := true } : WorkerState) = ⟨true, false⟩ := by
      show (⟨true, s.selfW.kill⟩ : WorkerState) = ⟨true, false⟩
      rw [hk]
    simp only [hsw, popEnv]
    rw [should_stop_false _ (Bool.or_eq_false_iff.mp hpassB).1
      (Bool.or_eq_false_iff.mp hpassB).2]
    simp only [popEnv]
    rw [should_stop_true _ hstopC]
  · intro seg rest hl hk hcl hpassB hpassC hstopD
    unfold SpychWakeListener.call
    rw [if_neg (by simp [hl]), should_stop_false s hk hcl]
    have hsw : ({ s.selfW with locked := true } : WorkerState) = ⟨true, false⟩ := by
      show (⟨true, s.selfW.kill⟩ : WorkerState) = ⟨true, false⟩
      rw [hk]
    simp only [hsw, popEnv]
    rw [should_stop_false _ (Bool.or_eq_false_iff.mp hpassB).1
      (Bool.or_eq_false_iff.mp hpassB).2]
    simp only [popEnv]
    rw [should_stop_false _ (Bool.or_eq_false_iff.mp hpassC).1
      (Bool.or_eq_false_iff.mp hpassC).2]
    simp only [popEnv]
    rw [show scanLoop m (dictKeys m) []
        (seg :: rest) (h (g (f { s with selfW := ⟨true, false⟩ }))) =
      (match SpychWakeListener.should_stop
          (h (g (f { s with selfW := ⟨true, false⟩ }))) with
      | (true, s) => (⟨s, none, [], 0⟩ : CallResult)
      | (false, s) =>
        match (dictKeys m).find? (fun w => strContains (strLower seg) w) with
        | some word =>
          match SpychWake.wake m word s with
          | (s, some e) => ⟨s, some e, [word], 0⟩
          | (s, none) =>
            ⟨{ s with selfW := { locked := false, kill := false } }, none, [word], 0⟩
        | none => scanLoop m (dictKeys m) [] rest s) from rfl]
    rw [should_stop_true _ hstopD]

/-- C7 witness: checkpoint A fires for a kill-flagged worker (the flags
are cleared, nothing recorded), and checkpoint B fires when the
coordinator locks during the recording. -/
theorem c7_witness :
    SpychWakeListener.call scenarioMap ["x"] [] ⟨false, false, ⟨false, true⟩, []⟩ =
      ⟨⟨false, false, ⟨false, false⟩, []⟩, none, [], 0⟩ ∧
    SpychWakeListener.call scenarioMap ["x"]
        [fun u => { u with coordLocked := true }] s0 =
      ⟨⟨true, false, ⟨false, false⟩, [⟨false, false⟩]⟩, none, [], 1⟩ :=
  ⟨(c7_checkpoint_discipline scenarioMap ["x"] [] ⟨false, false, ⟨false, true⟩, []⟩
      id id id).2.1 rfl rfl,
   (c7_checkpoint_discipline scenarioMap ["x"] []
      s0 (fun u => { u with coordLocked := true }) id id).2.2.1 rfl rfl rfl rfl⟩

/-! ## C10: a raising callback wedges the detecting worker -/

/-- C10.  When the worker's cycle reaches a match and the resulting
`wake` call raises (as it does whenever the callback raises, since the
error is re-raised through `notify`), the exception propagates out of
`__call__` before the worker's flag-clearing statements run: the worker's
own `locked` flag stays true in the final state, and every subsequent
invocation of that worker returns immediately at the initial locked check
— no recording, no wake call, no state change — so the worker never
listens again. -/
theorem c10_raising_wake_wedges_worker (m : WakeWordMap) (segs : List String)
    (s s1 : SysState) (w e : String)
    (h1 : s.selfW.locked = false) (h2 : s.selfW.kill = false)
    (h3 : s.coordLocked = false)
    (hm : specFirstMatch (dictKeys m) segs = some w)
    (hw : SpychWake.wake m w { s with selfW := ⟨true, false⟩ } = (s1, some e))
    (hlock : s1.selfW.locked = true) :
    SpychWakeListener.call m segs [] s = ⟨s1, some e, [w], 1⟩
    ∧ ∀ segs' env', SpychWakeListener.call m segs' env' s1 = ⟨s1, none, [], 0⟩ := by
  constructor
  · rw [call_clean m segs s h1 h2 h3]
    rw [scanLoop_match m (dictKeys m) segs
      { s with selfW := ⟨true, false⟩ } rfl h3 w hm]
    rw [hw]
  · intro segs' env'
    exact lockedSkip m segs' env' s1 hlock

/-- C10 witness: the raising callback `cbBoom` on a concrete cycle; the
worker ends wedged (`locked = true`) and skips every later cycle. -/
theorem c10_witness :
    SpychWakeListener.call [("w", cbBoom)] ["say w now"] [] s0 =
      ⟨⟨false, false, ⟨true, true⟩, [⟨false, true⟩]⟩,
       some "SpychWake.wake EXCEPTION: Error in on_wake_fn for 'w': boom", ["w"], 1⟩
    ∧ SpychWakeListener.call [("w", cbBoom)] ["say w again"] []
        ⟨false, false, ⟨true, true⟩, [⟨false, true⟩]⟩ =
        ⟨⟨false, false, ⟨true, true⟩, [⟨false, true⟩]⟩, none, [], 0⟩ :=
  ⟨(c10_raising_wake_wedges_worker [("w", cbBoom)] ["say w now"] s0
      ⟨false, false, ⟨true, true⟩, [⟨false, true⟩]⟩ "w"
      "SpychWake.wake EXCEPTION: Error in on_wake_fn for 'w': boom"
      rfl rfl rfl rfl rfl rfl).1,
   (c10_raising_wake_wedges_worker [("w", cbBoom)] ["say w now"] s0
      ⟨false, false, ⟨true, true⟩, [⟨false, true⟩]⟩ "w"
      "SpychWake.wake EXCEPTION: Error in on_wake_fn for 'w': boom"
      rfl rfl rfl rfl rfl rfl).2 ["say w again"] []⟩
